import Mathlib

/-!
Verification of the run-selection and cancellation engine of the
`cancel-previous-runs` GitHub action.

The TypeScript sources are shallowly embedded as Lean functions:

* `shouldBeCancelled`, `jobsMatchingNames`, `matchInArray`, `cancelRun`,
  `getWorkflowId` and the cancellation phase of `findAndCancelRuns` come from
  the main action source (`src/unnamed/part_000`);
* the run-index population (`getWorkflowRuns`), the page-shape normalisation
  and the listing-query builders come from `src/unnamed/part_000`,
  `src/unnamed/part_001` and `src/src/main.ts`;
* network effects (octokit calls) are modelled by explicit environments
  (`String → String → Bool` for the JS regular-expression test,
  `Nat → List (List Job)` for paginated job listings,
  `Nat → Except String Nat` for the cancellation REST call), and the network
  calls actually issued are recorded as explicit `NetCall` traces.
-/

namespace CancelRuns

/-- One observed workflow run, as consumed by `shouldBeCancelled`
(fields of `rest.ActionsListWorkflowRunsResponseWorkflowRunsItem` that the
source reads; `head_repository.full_name` is flattened into one field). -/
structure RunRecord where
  id : Nat
  run_number : Nat
  status : String
  event : String
  head_repository_full_name : String
  head_branch : String
  head_sha : String
deriving DecidableEq, Repr

/-- One job of a run, as consumed by `jobsMatchingNames`. -/
structure Job where
  name : String
  conclusion : String
deriving DecidableEq, Repr

/-- The constant `CANCELLABLE_RUNS` (src/unnamed/part_000, lines 6-12). -/
def CANCELLABLE_RUNS : List String :=
  ["push", "pull_request", "workflow_run", "schedule", "workflow_dispatch"]

/-- The `CancelMode` enum (src/unnamed/part_000, lines 14-19). -/
inductive CancelMode where
  | duplicates
  | self
  | failedJobs
  | namedJobs
deriving DecidableEq, Repr

/-- The function `matchInArray` (src/unnamed/part_000, lines 94-101).
The JS partial-match primitive `s.match(regexp)` is abstracted as the
parameter `rmatch`. -/
def matchInArray (rmatch : String → String → Bool) (s : String)
    (regexps : List String) : Bool :=
  regexps.any (fun regexp => rmatch s regexp)

/-- The decision taken for one job inside the job loop of `jobsMatchingNames`
(src/unnamed/part_000, lines 122-145): a job makes the function return true
iff its name matches one of the regexps and, when `checkIfFailed` is set, its
conclusion is `failure`; otherwise the scan continues. -/
def jobQualifies (rmatch : String → String → Bool) (jobNameRegexps : List String)
    (checkIfFailed : Bool) (job : Job) : Bool :=
  if matchInArray rmatch job.name jobNameRegexps then
    if checkIfFailed then job.conclusion == "failure" else true
  else false

/-- The function `jobsMatchingNames` (src/unnamed/part_000, lines 103-148).
The paginated job listing `octokit.paginate.iterator(listJobs)` is passed in
as the explicit list of pages `jobPages`; the nested loops with early return
are the two `List.any`. -/
def jobsMatchingNames (rmatch : String → String → Bool)
    (jobPages : List (List Job)) (jobNameRegexps : List String)
    (checkIfFailed : Bool) : Bool :=
  jobPages.any (fun item => item.any (jobQualifies rmatch jobNameRegexps checkIfFailed))

/-- The guard `headRepo !== undefined && runHeadRepo !== headRepo` of the
DUPLICATES branch (src/unnamed/part_000, line 272); `none` models the
`undefined` case of the `headRepo` argument. -/
def differsFromHeadRepo (headRepo : Option String) (runHeadRepo : String) : Bool :=
  match headRepo with
  | some expected => runHeadRepo != expected
  | none => false

/-- The function `shouldBeCancelled` (src/unnamed/part_000, lines 199-298).
`jobPagesOf runId` models the paginated job listing fetched for `runId` by
`jobsMatchingNames`. The `throw` for a wrong cancel mode is unreachable here
because `CancelMode` is the exact enum. -/
def shouldBeCancelled (rmatch : String → String → Bool)
    (jobPagesOf : Nat → List (List Job)) (runItem : RunRecord)
    (headRepo : Option String) (cancelMode : CancelMode) (sourceRunId : Nat)
    (jobNamesRegexps : List String) : Bool :=
  if runItem.status = "completed" then false
  else if runItem.event ∉ CANCELLABLE_RUNS then false
  else
    match cancelMode with
    | CancelMode.failedJobs =>
        jobsMatchingNames rmatch (jobPagesOf runItem.id) jobNamesRegexps true
    | CancelMode.namedJobs =>
        jobsMatchingNames rmatch (jobPagesOf runItem.id) jobNamesRegexps false
    | CancelMode.self =>
        runItem.id == sourceRunId
    | CancelMode.duplicates =>
        if differsFromHeadRepo headRepo runItem.head_repository_full_name then false
        else if runItem.id = sourceRunId then false
        else if runItem.id > sourceRunId then false
        else true

/-- A concrete run record used to instantiate theorems: a queued push run
whose id equals the source run id used alongside it. -/
def completedSelfRecord : RunRecord :=
  { id := 7, run_number := 3, status := "completed", event := "push",
    head_repository_full_name := "octo/repo", head_branch := "main",
    head_sha := "aaa111" }

/-- A concrete queued push run with id 100, head `octo/repo`. -/
def dupCandidateRecord : RunRecord :=
  { id := 100, run_number := 8, status := "queued", event := "push",
    head_repository_full_name := "octo/repo", head_branch := "main",
    head_sha := "bbb222" }

/-- A concrete in-progress push run with id 5. -/
def selfModeRecord : RunRecord :=
  { id := 5, run_number := 2, status := "in_progress", event := "push",
    head_repository_full_name := "octo/repo", head_branch := "main",
    head_sha := "ccc333" }

/-- A log line produced by `cancelRun` (src/unnamed/part_000, lines 300-320):
an info line carrying the reply status on success, a warning carrying the
caught error message on failure. -/
inductive LogEntry where
  | info (runId : Nat) (status : Nat)
  | warning (runId : Nat) (message : String)
deriving DecidableEq, Repr

/-- The run id a `LogEntry` refers to. -/
def logRunId : LogEntry → Nat
  | LogEntry.info runId _ => runId
  | LogEntry.warning runId _ => runId

/-- The function `cancelRun` (src/unnamed/part_000, lines 300-320).
The REST call `octokit.actions.cancelWorkflowRun` is modelled by the
environment `cancelCall`; an `Except.error` is the thrown error, which
`cancelRun` catches and turns into a warning log line, so the function is
total and never propagates the failure. -/
def cancelRun (cancelCall : Nat → Except String Nat) (runId : Nat) : LogEntry :=
  match cancelCall runId with
  | Except.ok status => LogEntry.info runId status
  | Except.error message => LogEntry.warning runId message

/-- The sort `idsToCancel.sort((id1, id2) => id1 - id2)` of
`findAndCancelRuns` (src/unnamed/part_000, line 429): ascending numeric
order, modelled by insertion sort on `≤`. -/
def sortedIdsToCancel (idsToCancel : List Nat) : List Nat :=
  List.insertionSort (· ≤ ·) idsToCancel

set_option linter.unusedVariables false in
/-- The cancellation phase of `findAndCancelRuns`
(src/unnamed/part_000, lines 428-458): sort the accumulated candidate ids
ascending, issue one awaited `cancelRun` per id in that order (first
component: the log lines, in the order the calls were issued), and return
`sortedIdsToCancel` (second component) — the source returns the sorted list
itself, unconditionally. `selfRunId` is the invoking run's id; the source
uses it only inside the pull-request notification URL, so it does not
influence the cancellation order or the returned list. -/
def findAndCancelRunsTail (cancelCall : Nat → Except String Nat)
    (selfRunId : Nat) (idsToCancel : List Nat) : List LogEntry × List Nat :=
  let sorted := sortedIdsToCancel idsToCancel
  (sorted.map (fun runId => cancelRun cancelCall runId), sorted)

/-- One page payload of the paginated run listing, as the source inspects
it: `bare` is an array (its `.length` is defined), `wrapped` is an object
whose `workflow_runs` property holds the array, `malformed` is an object
with neither sequence semantics nor a `workflow_runs` property. -/
inductive PageData where
  | bare (runs : List RunRecord)
  | wrapped (workflow_runs : List RunRecord)
  | malformed
deriving DecidableEq, Repr

/-- The page-shape normalisation of `getWorkflowRuns`
(src/unnamed/part_000, lines 188-189; identical in src/unnamed/part_001,
lines 118-119, and in `cancelDuplicates` of src/src/main.ts, lines 195-196):
`item.data.length === undefined ? item.data.workflow_runs : item.data`,
followed by iterating the selected value. On a `malformed` page the selected
value is `undefined` and the `for ... of` throws, modelled as the error
result; neither recognised shape raises. -/
def extractElements : PageData → Except String (List RunRecord)
  | PageData.bare runs => Except.ok runs
  | PageData.wrapped runs => Except.ok runs
  | PageData.malformed => Except.error "TypeError: undefined is not iterable"

/-- The page handling of the first `run` variant in src/src/main.ts
(lines 47-51): `const elements = ++count < 2 ? item.data :
item.data.workflow_runs`, followed by iterating the selected value — the
shape is chosen by the page counter (`count` here is the already
incremented value, so 1 for the first page), not by inspecting the payload.
Iterating a plain object or `undefined` throws, modelled as errors. -/
def extractElementsV1 (count : Nat) (d : PageData) :
    Except String (List RunRecord) :=
  if count < 2 then
    match d with
    | PageData.bare runs => Except.ok runs
    | _ => Except.error "TypeError: item.data is not iterable"
  else
    match d with
    | PageData.wrapped runs => Except.ok runs
    | _ => Except.error "TypeError: undefined is not iterable"

/-- Modelled from the spec: the `jstreemap` TreeMap backing the Run Index is
an external dependency whose implementation is not among the repository
sources; following the §4.2 contract (an ordered associative structure keyed
by run number) it is modelled as an association list kept strictly ascending
by key, with `indexSet` the insert-or-overwrite `set` operation. -/
def indexSet : List (Nat × RunRecord) → Nat → RunRecord → List (Nat × RunRecord)
  | [], k, v => [(k, v)]
  | p :: rest, k, v =>
    if k < p.fst then (k, v) :: p :: rest
    else if k = p.fst then (k, v) :: rest
    else p :: indexSet rest k v

/-- TreeMap lookup by key (first entry whose key matches). -/
def indexGet (idx : List (Nat × RunRecord)) (k : Nat) : Option RunRecord :=
  (idx.find? (fun p => p.fst == k)).map Prod.snd

/-- The element loop of `getWorkflowRuns` (src/unnamed/part_000, lines
190-192): `workflowRuns.set(element.run_number, element)` for each record of
one normalised page. -/
def insertRuns (idx : List (Nat × RunRecord)) (elements : List RunRecord) :
    List (Nat × RunRecord) :=
  elements.foldl (fun m element => indexSet m element.run_number element) idx

/-- A Run Index built by a sequence of inserts starting from the empty map
(the state of `workflowRuns` after processing the given records). -/
def buildIndex (records : List RunRecord) : List (Nat × RunRecord) :=
  insertRuns [] records

/-- Forward iteration of the Run Index: ascending key order (the default
TreeMap iteration used by `findAndCancelRuns`, src/unnamed/part_000,
line 396). -/
def forwardIterate (idx : List (Nat × RunRecord)) : List (Nat × RunRecord) :=
  idx

/-- Backward iteration of the Run Index: descending key order
(`sortedWorkflowRuns.backward()`, src/unnamed/part_001, line 186). -/
def backwardIterate (idx : List (Nat × RunRecord)) : List (Nat × RunRecord) :=
  idx.reverse

/-- The page loop of `getWorkflowRuns` for one status value
(src/unnamed/part_000, lines 184-193): each page is normalised by
`extractElements` and its records inserted by run number; an unrecognised
page shape aborts with the thrown error. -/
def insertPages : List (Nat × RunRecord) → List PageData →
    Except String (List (Nat × RunRecord))
  | idx, [] => Except.ok idx
  | idx, item :: rest =>
    match extractElements item with
    | Except.error e => Except.error e
    | Except.ok elements => insertPages (insertRuns idx elements) rest

/-- The status loop of `getWorkflowRuns` (src/unnamed/part_000, lines
182-194), over an explicit status list; `pagesFor status` models the pages
returned by `octokit.paginate.iterator` for the listing query built with
that status. -/
def getWorkflowRunsAux (pagesFor : String → List PageData) :
    List (Nat × RunRecord) → List String →
      Except String (List (Nat × RunRecord))
  | idx, [] => Except.ok idx
  | idx, status :: rest =>
    match insertPages idx (pagesFor status) with
    | Except.error e => Except.error e
    | Except.ok idx2 => getWorkflowRunsAux pagesFor idx2 rest

/-- The list `statusValues = ['queued', 'in_progress']` of
`findAndCancelRuns` (src/unnamed/part_000, line 338). -/
def statusValues : List String := ["queued", "in_progress"]

/-- `getWorkflowRuns` as called from `findAndCancelRuns`
(src/unnamed/part_000, lines 170-197 and 339-343): populate the Run Index
from the pages of one listing query per status in `statusValues`. -/
def getWorkflowRuns (pagesFor : String → List PageData) :
    Except String (List (Nat × RunRecord)) :=
  getWorkflowRunsAux pagesFor [] statusValues

/-- The status list of `getSortedWorkflowRuns`
(src/unnamed/part_001, line 112). -/
def getSortedWorkflowRunsStatusValues : List String := ["queued", "in_progress"]

/-- The status list of `cancelDuplicates` (src/src/main.ts, line 181). -/
def cancelDuplicatesStatusValues : List String := ["queued", "in_progress"]

/-- A run-listing request as merged into the endpoint by the query builders
(owner and repo omitted: constant within one invocation). -/
structure ListRunsRequest where
  workflow_id : Option Nat
  run_id : Option Nat
  status : Option String
  branch : Option String
  event : Option String
deriving DecidableEq, Repr

/-- `createListRunsQueryOtherRuns` (src/unnamed/part_000, lines 21-40). -/
def createListRunsQueryOtherRuns (workflowId : Nat)
    (status headBranch eventName : String) : ListRunsRequest :=
  { workflow_id := some workflowId, run_id := none, status := some status,
    branch := some headBranch, event := some eventName }

/-- `createListRunsQueryMyOwnRun` (src/unnamed/part_000, lines 42-60). -/
def createListRunsQueryMyOwnRun (workflowId : Nat) (status : String)
    (runId : Nat) : ListRunsRequest :=
  { workflow_id := some workflowId, run_id := some runId,
    status := some status, branch := none, event := none }

/-- `createListRunsQueryAllRuns` (src/unnamed/part_000, lines 62-77). -/
def createListRunsQueryAllRuns (workflowId : Nat) (status : String) :
    ListRunsRequest :=
  { workflow_id := some workflowId, run_id := none, status := some status,
    branch := none, event := none }

/-- The listing queries issued by `findAndCancelRuns`
(src/unnamed/part_000, lines 338-393): one query per status in
`statusValues`, built by the query builder the cancel mode selects. -/
def findAndCancelRunsListingQueries (cancelMode : CancelMode)
    (sourceWorkflowId sourceRunId : Nat)
    (headBranch sourceEventName : String) : List ListRunsRequest :=
  statusValues.map (fun status =>
    match cancelMode with
    | CancelMode.self =>
        createListRunsQueryMyOwnRun sourceWorkflowId status sourceRunId
    | CancelMode.failedJobs =>
        createListRunsQueryAllRuns sourceWorkflowId status
    | CancelMode.namedJobs =>
        createListRunsQueryAllRuns sourceWorkflowId status
    | CancelMode.duplicates =>
        createListRunsQueryOtherRuns sourceWorkflowId status headBranch
          sourceEventName)

/-- The single listing request issued by the cancellation path of the first
`run` variant in src/src/main.ts (lines 37-42,
`octokit.actions.listRepoWorkflowRuns.endpoint.merge({owner, repo, branch,
event: 'push'})`): a branch and the `push` event, and no status filter at
all. -/
def mainV1ListRunsQuery (branch : String) : ListRunsRequest :=
  { workflow_id := none, run_id := none, status := none,
    branch := some branch, event := some "push" }

/-- A network call issued by the engine, recorded in a trace. -/
inductive NetCall where
  | getWorkflowRunCall (run_id : Nat)
  | listWorkflowRunsCall (request : ListRunsRequest)
  | listJobsForWorkflowRunCall (run_id : Nat)
  | cancelWorkflowRunCall (run_id : Nat)
deriving DecidableEq, Repr

/-- The last `/`-separated segment of a URL: `url.split('/').pop() || ''`
(src/unnamed/part_000, line 163), computed on the character list of the
string. -/
def lastUrlSegment (url : String) : String :=
  String.mk ((url.toList.splitOn '/').getLast?.getD [])

/-- JS `parseInt` on a decimal string, computed on the character list;
`none` models `NaN` (no leading digits). -/
def jsParseInt (s : String) : Option Nat :=
  let digits := s.toList.takeWhile Char.isDigit
  if digits.isEmpty then none
  else some (digits.foldl (fun n c => 10 * n + (c.toNat - 48)) 0)

/-- The function `getWorkflowId` (src/unnamed/part_000, lines 150-168):
fetch the source run (the caller records the corresponding `getWorkflowRun`
network call), take the last `/`-segment of its `workflow_url`, throw when
that segment is empty, and `parseInt` it. `workflowUrlOf` models the
`workflow_url` field of the `getWorkflowRun` reply. -/
def getWorkflowId (workflowUrlOf : Nat → String) (runId : Nat) :
    Except String (Option Nat) :=
  let workflowIdString := lastUrlSegment (workflowUrlOf runId)
  if ¬ (workflowIdString.length > 0) then
    Except.error "Could not resolve workflow"
  else Except.ok (jsParseInt workflowIdString)

/-- The configuration the entry function `run` reads from its inputs and
environment (src/unnamed/part_000, lines 637-651): `none` models an empty
`cancelMode` input (defaulting to DUPLICATES) and an unset or unparsable
`sourceRunId` input (defaulting to `selfRunId`). -/
structure RunConfig where
  selfRunId : Nat
  eventName : String
  cancelModeInput : Option CancelMode
  sourceRunIdInput : Option Nat
  jobNameRegexps : List String
deriving Repr

/-- The prefix of the entry function `run` (src/unnamed/part_000, lines
636-690) up to and including its two validation checks, paired with the
trace of network calls issued so far: `run` first resolves the source run's
workflow id through `getWorkflowId` — one `getWorkflowRun` network call —
and only then rejects job-name patterns combined with the DUPLICATES or
SELF cancel mode, and then the sourceless `workflow_run` DUPLICATES
combination. The later steps (origin resolution, listing, cancellation) are
reached only when this prefix returns `Except.ok` and are modelled
separately by `getWorkflowRuns`, `shouldBeCancelled` and
`findAndCancelRunsTail`. -/
def runEntryChecks (workflowUrlOf : Nat → String) (cfg : RunConfig) :
    List NetCall × Except String (Option Nat) :=
  let cancelMode := cfg.cancelModeInput.getD CancelMode.duplicates
  let sourceRunId := cfg.sourceRunIdInput.getD cfg.selfRunId
  let calls := [NetCall.getWorkflowRunCall sourceRunId]
  match getWorkflowId workflowUrlOf sourceRunId with
  | Except.error e => (calls, Except.error e)
  | Except.ok sourceWorkflowId =>
    if cfg.jobNameRegexps.length > 0 ∧
        (cancelMode = CancelMode.duplicates ∨ cancelMode = CancelMode.self) then
      (calls, Except.error "You cannot specify jobNames on this cancelMode.")
    else if cfg.eventName = "workflow_run" ∧ sourceRunId = cfg.selfRunId ∧
        cancelMode = CancelMode.duplicates then
      (calls,
        Except.error
          "You cannot run workflow_run in duplicates cancelMode without sourceId input.")
    else (calls, Except.ok sourceWorkflowId)

end CancelRuns

namespace CancelRuns

/-- Every cancellation log line refers to the run id the call was issued
for. -/
theorem logRunId_cancelRun (cancelCall : Nat → Except String Nat) (runId : Nat) :
    logRunId (cancelRun cancelCall runId) = runId := by
  unfold cancelRun
  cases h : cancelCall runId <;> simp [logRunId]

/-- The sorted candidate list is sorted ascending. -/
theorem sortedIdsToCancel_sorted (ids : List Nat) :
    List.Sorted (· ≤ ·) (sortedIdsToCancel ids) :=
  List.sorted_insertionSort _ _

/-- The sorted candidate list is a permutation of the collected one. -/
theorem sortedIdsToCancel_perm (ids : List Nat) :
    (sortedIdsToCancel ids).Perm ids :=
  List.perm_insertionSort _ _

/-- In a list sorted by `≤`, an element that bounds the whole list from
above is the last element. -/
theorem sorted_getLast_eq_max : ∀ l : List Nat, List.Sorted (· ≤ ·) l →
    ∀ a : Nat, a ∈ l → (∀ x ∈ l, x ≤ a) → l.getLast? = some a := by
  intro l
  induction l with
  | nil => intro _ a ha _; cases ha
  | cons b t ih =>
    intro hs a ha hmax
    cases t with
    | nil =>
      have : a = b := by simpa using ha
      simp [this]
    | cons c t' =>
      rw [List.getLast?_cons_cons]
      have hs' := (List.sorted_cons.mp hs).2
      have hmax' : ∀ x ∈ c :: t', x ≤ a := fun x hx => hmax x (List.mem_cons_of_mem b hx)
      rcases List.mem_cons.mp ha with hab | hat
      · have hbc : b ≤ c := (List.sorted_cons.mp hs).1 c (by simp)
        have hca : c ≤ a := hmax c (by simp)
        have hceq : c = a := le_antisymm hca (hab ▸ hbc)
        exact ih hs' a (hceq ▸ List.mem_cons_self c t') hmax'
      · exact ih hs' a hat hmax'

/-- Claim C2: under every one of the four policies, `shouldBeCancelled`
returns false whenever the record's status is `completed` or its event is not
one of the cancellable trigger events; the guard fires before (and
independently of) any policy-specific logic, so the result is false for every
policy, every job environment and every regexp list. -/
theorem terminal_guard_all_policies (rmatch : String → String → Bool)
    (jobPagesOf : Nat → List (List Job)) (runItem : RunRecord)
    (headRepo : Option String) (cancelMode : CancelMode) (sourceRunId : Nat)
    (jobNamesRegexps : List String)
    (h : runItem.status = "completed" ∨ runItem.event ∉ CANCELLABLE_RUNS) :
    shouldBeCancelled rmatch jobPagesOf runItem headRepo cancelMode sourceRunId
      jobNamesRegexps = false := by
  unfold shouldBeCancelled
  rcases h with h | h
  · simp [h]
  · by_cases hc : runItem.status = "completed" <;> simp [hc, h]

/-- Witness for C2: the guard theorem applied to a concrete completed run
under the FailedJobs policy, whose job environment would otherwise answer
true. -/
theorem terminal_guard_all_policies_witness :
    shouldBeCancelled (fun _ _ => true)
      (fun _ => [[{ name := "x", conclusion := "failure" }]])
      completedSelfRecord none CancelMode.failedJobs 7 ["x"] = false :=
  terminal_guard_all_policies (fun _ _ => true)
    (fun _ => [[{ name := "x", conclusion := "failure" }]])
    completedSelfRecord none CancelMode.failedJobs 7 ["x"] (Or.inl rfl)

/-- Claim C1: under the Duplicates policy, for a record that passes the
terminal guard and a defined expected head repository, the decision equals:
head repositories agree and the record's id is strictly below `sourceRunId`.
Hence it is false when the head repository differs, false when
`id = sourceRunId`, false when `id > sourceRunId`, and true otherwise. -/
theorem duplicates_policy_decision (rmatch : String → String → Bool)
    (jobPagesOf : Nat → List (List Job)) (runItem : RunRecord)
    (expectedHeadRepo : String) (sourceRunId : Nat) (jobNamesRegexps : List String)
    (hstatus : runItem.status ≠ "completed")
    (hevent : runItem.event ∈ CANCELLABLE_RUNS) :
    shouldBeCancelled rmatch jobPagesOf runItem (some expectedHeadRepo)
      CancelMode.duplicates sourceRunId jobNamesRegexps =
      decide (runItem.head_repository_full_name = expectedHeadRepo ∧
        runItem.id < sourceRunId) := by
  unfold shouldBeCancelled differsFromHeadRepo
  simp only [hstatus, if_false, hevent, not_true_eq_false]
  by_cases hre : runItem.head_repository_full_name = expectedHeadRepo
  · by_cases h1 : runItem.id = sourceRunId <;>
      by_cases h2 : runItem.id > sourceRunId <;>
        simp [hre, h1, h2] <;> omega
  · simp [hre]

/-- Witness for C1: the Duplicates decision, applied to a queued push run with
id 100, matching head repository and source run id 150, evaluates to true. -/
theorem duplicates_policy_decision_witness :
    shouldBeCancelled (fun _ _ => false) (fun _ => []) dupCandidateRecord
      (some "octo/repo") CancelMode.duplicates 150 [] = true := by
  have h := duplicates_policy_decision (fun _ _ => false) (fun _ => [])
    dupCandidateRecord "octo/repo" 150 [] (by decide) (by decide)
  simpa using h

/-- Claim C5, counterexample: a completed push run whose id equals
`sourceRunId` is NOT cancelled under the Self policy, because the terminal
guard fires first; this refutes the claim that the Self decision is
`id = sourceRunId` regardless of the record's status. -/
theorem self_policy_guard_counterexample :
    ¬ (shouldBeCancelled (fun _ _ => false) (fun _ => []) completedSelfRecord
        none CancelMode.self 7 [] = true ↔ completedSelfRecord.id = 7) := by
  decide

/-- Claim C5, amended: under the Self policy, for every record that passes
the terminal guard (status not `completed` and cancellable event), the
decision is exactly `id == sourceRunId`, for any other field values; records
failing the guard yield false. -/
theorem self_policy_decision (rmatch : String → String → Bool)
    (jobPagesOf : Nat → List (List Job)) (runItem : RunRecord)
    (headRepo : Option String) (sourceRunId : Nat) (jobNamesRegexps : List String)
    (hstatus : runItem.status ≠ "completed")
    (hevent : runItem.event ∈ CANCELLABLE_RUNS) :
    shouldBeCancelled rmatch jobPagesOf runItem headRepo CancelMode.self
      sourceRunId jobNamesRegexps = (runItem.id == sourceRunId) := by
  unfold shouldBeCancelled
  simp [hstatus, hevent]

/-- Witness for C5 (amended): an in-progress push run with id 5 is cancelled
under the Self policy with source run id 5. -/
theorem self_policy_decision_witness :
    shouldBeCancelled (fun _ _ => false) (fun _ => []) selfModeRecord none
      CancelMode.self 5 [] = true := by
  have h := self_policy_decision (fun _ _ => false) (fun _ => []) selfModeRecord
    none 5 [] (by decide) (by decide)
  simpa using h

/-- Claim C4: `jobsMatchingNames` with `checkIfFailed = true` returns true
exactly when some job on some page both matches one of the patterns and has
conclusion `failure` (a matching job with another conclusion does not stop
the scan); with `checkIfFailed = false` it returns true exactly when some
job matches, irrespective of conclusion; exhausting all pages without a
qualifying match yields false (the contrapositive of each equivalence). -/
theorem jobsMatchingNames_decision (rmatch : String → String → Bool)
    (jobPages : List (List Job)) (jobNameRegexps : List String) :
    (jobsMatchingNames rmatch jobPages jobNameRegexps true = true ↔
      ∃ page ∈ jobPages, ∃ job ∈ page,
        matchInArray rmatch job.name jobNameRegexps = true ∧
          job.conclusion = "failure") ∧
    (jobsMatchingNames rmatch jobPages jobNameRegexps false = true ↔
      ∃ page ∈ jobPages, ∃ job ∈ page,
        matchInArray rmatch job.name jobNameRegexps = true) := by
  have hq : ∀ (b : Bool) (job : Job),
      jobQualifies rmatch jobNameRegexps b job = true ↔
        matchInArray rmatch job.name jobNameRegexps = true ∧
          (b = true → job.conclusion = "failure") := by
    intro b job
    cases b <;> by_cases h : matchInArray rmatch job.name jobNameRegexps <;>
      simp [jobQualifies, h]
  constructor <;> simp [jobsMatchingNames, List.any_eq_true, hq, and_assoc]

/-- Witness for C4: with equality as the match primitive, the job list
`[Build docs: success, Static checks: failure]` and pattern
`Static checks`, the failure-requiring scan answers true. -/
theorem jobsMatchingNames_decision_witness :
    jobsMatchingNames (fun s p => s == p)
      [[{ name := "Build docs", conclusion := "success" },
        { name := "Static checks", conclusion := "failure" }]]
      ["Static checks"] true = true := by
  apply ((jobsMatchingNames_decision (fun s p => s == p)
      [[{ name := "Build docs", conclusion := "success" },
        { name := "Static checks", conclusion := "failure" }]]
      ["Static checks"]).1).mpr
  refine ⟨[{ name := "Build docs", conclusion := "success" },
      { name := "Static checks", conclusion := "failure" }], by simp,
    { name := "Static checks", conclusion := "failure" }, by simp, ?_, rfl⟩
  decide

/-- Claim C3, counterexample: candidates `[100, 120]` with invoking run id
100 — the invoking run's id is among the candidates, yet the orchestrator
issues its cancellation first, not last (the last issued call is for 120),
because the ascending sort ignores the invoking run's id. -/
theorem invoking_run_not_cancelled_last :
    100 ∈ ([100, 120] : List Nat) ∧
    ((findAndCancelRunsTail (fun _ => Except.ok 202) 100 [100, 120]).1.map
        logRunId).getLast? = some 120 := by
  decide

/-- Claim C3, amended: the orchestrator issues the cancellation calls exactly
in the order of `sortedIdsToCancel`, which is an ascending-sorted permutation
of the collected candidate ids; a candidate equal to the invoking run's id is
cancelled last whenever it is an upper bound of the candidates; and the
concrete candidates `[205, 190, 210]` are cancelled in the order
`190, 205, 210`. -/
theorem cancellation_order_sorted_ascending (cancelCall : Nat → Except String Nat)
    (selfRunId : Nat) (idsToCancel : List Nat) :
    ((findAndCancelRunsTail cancelCall selfRunId idsToCancel).1.map logRunId
        = sortedIdsToCancel idsToCancel) ∧
    List.Sorted (· ≤ ·) (sortedIdsToCancel idsToCancel) ∧
    (sortedIdsToCancel idsToCancel).Perm idsToCancel ∧
    ((selfRunId ∈ idsToCancel ∧ ∀ x ∈ idsToCancel, x ≤ selfRunId) →
      (sortedIdsToCancel idsToCancel).getLast? = some selfRunId) ∧
    sortedIdsToCancel [205, 190, 210] = [190, 205, 210] := by
  refine ⟨?_, sortedIdsToCancel_sorted _, sortedIdsToCancel_perm _, ?_, by decide⟩
  · unfold findAndCancelRunsTail
    rw [List.map_map]
    have hcomp : (logRunId ∘ fun runId => cancelRun cancelCall runId) = id := by
      funext runId
      simp [Function.comp, logRunId_cancelRun]
    rw [hcomp, List.map_id]
  · rintro ⟨hmem, hmax⟩
    have hperm := sortedIdsToCancel_perm idsToCancel
    exact sorted_getLast_eq_max _ (sortedIdsToCancel_sorted _) selfRunId
      (hperm.mem_iff.mpr hmem) (fun x hx => hmax x (hperm.mem_iff.mp hx))

/-- Witness for C3 (amended): with candidates `[205, 190, 210]` and invoking
run id 210 (an upper bound of the candidates), the last cancellation issued
is for run 210. -/
theorem cancellation_order_sorted_ascending_witness :
    (sortedIdsToCancel [205, 190, 210]).getLast? = some 210 :=
  (cancellation_order_sorted_ascending (fun _ => Except.ok 202) 210
      [205, 190, 210]).2.2.2.1 ⟨by decide, by decide⟩

/-- Claim C6, counterexample: with a cancel call that fails for every run,
the candidate 190 produces a warning log line (the failure is caught), yet
190 is still present in the list returned by the orchestrator — the source
returns `sortedIdsToCancel` unconditionally, so a failed id is NOT absent
from the reported cancelled-run list. -/
theorem failed_cancellation_still_reported :
    (findAndCancelRunsTail (fun _ => Except.error "Status 403") 42 [190]).1
        = [LogEntry.warning 190 "Status 403"] ∧
    190 ∈ (findAndCancelRunsTail (fun _ => Except.error "Status 403") 42 [190]).2 := by
  decide

/-- Claim C6, amended: a failing cancellation call is caught inside
`cancelRun` and logged as a warning, never propagated (the cancellation phase
is total and issues exactly one call per sorted candidate, so the remaining
candidates are still processed); the reported cancelled-run list is the full
sorted candidate list, independent of which calls failed — failed ids are
included in it. -/
theorem cancellation_errors_recovered (cancelCall : Nat → Except String Nat)
    (selfRunId : Nat) (idsToCancel : List Nat) :
    ((findAndCancelRunsTail cancelCall selfRunId idsToCancel).1.length
        = (sortedIdsToCancel idsToCancel).length) ∧
    (∀ runId ∈ sortedIdsToCancel idsToCancel, ∀ message,
      cancelCall runId = Except.error message →
        LogEntry.warning runId message ∈
          (findAndCancelRunsTail cancelCall selfRunId idsToCancel).1) ∧
    ((findAndCancelRunsTail cancelCall selfRunId idsToCancel).2
        = sortedIdsToCancel idsToCancel) := by
  refine ⟨by simp [findAndCancelRunsTail], ?_, rfl⟩
  intro runId hmem message herr
  refine List.mem_map.mpr ⟨runId, hmem, ?_⟩
  unfold cancelRun
  rw [herr]

/-- Witness for C6 (amended): a cancel call failing with `Status 403` on
candidate 190 is logged as a warning for 190. -/
theorem cancellation_errors_recovered_witness :
    LogEntry.warning 190 "Status 403" ∈
      (findAndCancelRunsTail (fun _ => Except.error "Status 403") 42 [190]).1 :=
  (cancellation_errors_recovered (fun _ => Except.error "Status 403") 42
      [190]).2.1 190 (by decide) "Status 403" rfl

/-- An entry of `indexSet idx k v` is the inserted pair or an entry of
`idx`. -/
theorem mem_indexSet (idx : List (Nat × RunRecord)) (k : Nat) (v : RunRecord)
    (q : Nat × RunRecord) (hq : q ∈ indexSet idx k v) :
    q = (k, v) ∨ q ∈ idx := by
  induction idx with
  | nil => simpa [indexSet] using hq
  | cons p rest ih =>
    rw [indexSet] at hq
    by_cases hk1 : k < p.fst
    · rw [if_pos hk1] at hq
      exact List.mem_cons.mp hq
    · rw [if_neg hk1] at hq
      by_cases hk2 : k = p.fst
      · rw [if_pos hk2] at hq
        rcases List.mem_cons.mp hq with h | h
        · exact Or.inl h
        · exact Or.inr (List.mem_cons_of_mem p h)
      · rw [if_neg hk2] at hq
        rcases List.mem_cons.mp hq with h | h
        · exact Or.inr (h ▸ List.mem_cons_self p rest)
        · rcases ih h with h' | h'
          · exact Or.inl h'
          · exact Or.inr (List.mem_cons_of_mem p h')

/-- `indexSet` keeps the key list strictly ascending. -/
theorem indexSet_keys_sorted (idx : List (Nat × RunRecord)) (k : Nat)
    (v : RunRecord) (h : List.Sorted (· < ·) (idx.map Prod.fst)) :
    List.Sorted (· < ·) ((indexSet idx k v).map Prod.fst) := by
  induction idx with
  | nil => simp [indexSet]
  | cons p rest ih =>
    rw [List.map_cons, List.sorted_cons] at h
    obtain ⟨hp, hrest⟩ := h
    rw [indexSet]
    by_cases hk1 : k < p.fst
    · rw [if_pos hk1, List.map_cons, List.map_cons, List.sorted_cons]
      refine ⟨?_, ?_⟩
      · intro b hb
        rcases List.mem_cons.mp hb with rfl | hb
        · exact hk1
        · exact lt_trans hk1 (hp b hb)
      · rw [List.sorted_cons]
        exact ⟨hp, hrest⟩
    · rw [if_neg hk1]
      by_cases hk2 : k = p.fst
      · rw [if_pos hk2, List.map_cons, List.sorted_cons]
        exact ⟨fun b hb => hk2 ▸ hp b hb, hrest⟩
      · rw [if_neg hk2, List.map_cons, List.sorted_cons]
        refine ⟨?_, ih hrest⟩
        intro b hb
        rcases List.mem_map.mp hb with ⟨q, hq, rfl⟩
        rcases mem_indexSet rest k v q hq with rfl | hqrest
        · show p.fst < k
          omega
        · exact hp q.fst (List.mem_map_of_mem Prod.fst hqrest)

/-- Looking up the key just set returns the new record: a later `set` with
the same key overwrites the earlier entry. -/
theorem indexGet_indexSet (idx : List (Nat × RunRecord)) (k : Nat)
    (v : RunRecord) : indexGet (indexSet idx k v) k = some v := by
  induction idx with
  | nil => simp [indexSet, indexGet]
  | cons p rest ih =>
    rw [indexSet]
    by_cases hk1 : k < p.fst
    · rw [if_pos hk1]
      simp [indexGet]
    · rw [if_neg hk1]
      by_cases hk2 : k = p.fst
      · rw [if_pos hk2]
        simp [indexGet]
      · rw [if_neg hk2]
        have hne : (p.fst == k) = false := by
          simp only [beq_eq_false_iff_ne, ne_eq]
          omega
        simp only [indexGet, List.find?_cons, hne] at ih ⊢
        exact ih

/-- `insertRuns` keeps the key list strictly ascending. -/
theorem insertRuns_keys_sorted (elements : List RunRecord) :
    ∀ idx, List.Sorted (· < ·) (idx.map Prod.fst) →
      List.Sorted (· < ·) ((insertRuns idx elements).map Prod.fst) := by
  induction elements with
  | nil =>
    intro idx h
    simpa [insertRuns] using h
  | cons e rest ih =>
    intro idx h
    simp only [insertRuns, List.foldl_cons] at ih ⊢
    exact ih _ (indexSet_keys_sorted idx e.run_number e h)

/-- Every entry of `insertRuns idx elements` is an old entry of `idx` or
keys one of the inserted records by its run number. -/
theorem mem_insertRuns (elements : List RunRecord) :
    ∀ idx q, q ∈ insertRuns idx elements →
      q ∈ idx ∨ ∃ e ∈ elements, q = (e.run_number, e) := by
  induction elements with
  | nil =>
    intro idx q hq
    exact Or.inl (by simpa [insertRuns] using hq)
  | cons e rest ih =>
    intro idx q hq
    simp only [insertRuns, List.foldl_cons] at ih hq
    rcases ih _ q hq with hidx | ⟨e', he', heq⟩
    · rcases mem_indexSet idx e.run_number e q hidx with rfl | h
      · exact Or.inr ⟨e, List.mem_cons_self e rest, rfl⟩
      · exact Or.inl h
    · exact Or.inr ⟨e', List.mem_cons_of_mem e he', heq⟩

/-- The key list of a Run Index built from scratch is strictly ascending. -/
theorem buildIndex_keys_sorted (records : List RunRecord) :
    List.Sorted (· < ·) ((buildIndex records).map Prod.fst) :=
  insertRuns_keys_sorted records [] (by simp)

/-- Every entry of a Run Index built from scratch keys one of the inserted
records by its run number. -/
theorem mem_buildIndex (records : List RunRecord) (q : Nat × RunRecord)
    (hq : q ∈ buildIndex records) : ∃ e ∈ records, q = (e.run_number, e) := by
  rcases mem_insertRuns records [] q hq with h | h
  · cases h
  · exact h

/-- The final insert of a sequence wins: after inserting `records` and then
`r`, the key `r.run_number` maps to `r`. -/
theorem buildIndex_append_overwrite (records : List RunRecord)
    (r : RunRecord) :
    indexGet (buildIndex (records ++ [r])) r.run_number = some r := by
  unfold buildIndex insertRuns
  rw [List.foldl_append]
  simp only [List.foldl_cons, List.foldl_nil]
  exact indexGet_indexSet _ _ _

/-- Claim C9: for every sequence of inserts into the Run Index, the
retained keys are pairwise distinct (at most one record per run number) and
each entry keys an inserted record by its run number; a later insert with
the same run number overwrites the earlier record (the final lookup returns
the later record); forward iteration is strictly ascending and backward
iteration strictly descending in run number. -/
theorem run_index_spec (records : List RunRecord) (r : RunRecord) :
    ((forwardIterate (buildIndex records)).map Prod.fst).Nodup ∧
    (∀ q ∈ buildIndex records, ∃ e ∈ records, q = (e.run_number, e)) ∧
    indexGet (buildIndex (records ++ [r])) r.run_number = some r ∧
    List.Sorted (· < ·) ((forwardIterate (buildIndex records)).map Prod.fst) ∧
    List.Sorted (· > ·) ((backwardIterate (buildIndex records)).map Prod.fst) := by
  have hs := buildIndex_keys_sorted records
  refine ⟨?_, fun q hq => mem_buildIndex records q hq,
    buildIndex_append_overwrite records r, hs, ?_⟩
  · exact List.Pairwise.imp (fun h => Nat.ne_of_lt h) hs
  · rw [backwardIterate, List.map_reverse]
    exact List.pairwise_reverse.mpr hs

/-- Witness for C9: inserting two concrete records and then looking up the
run number of the last one returns that record. -/
theorem run_index_spec_witness :
    indexGet (buildIndex ([dupCandidateRecord] ++ [selfModeRecord]))
        selfModeRecord.run_number = some selfModeRecord :=
  (run_index_spec [dupCandidateRecord] selfModeRecord).2.2.1

/-- Claim C8, counterexample: the first `run` variant of src/src/main.ts
does not detect the page shape from the payload: a second page (incremented
counter 2) shaped as a bare sequence of run objects — a recognised shape,
which the TreeMap-based normaliser extracts without error — makes it read
the undefined `workflow_runs` property and raise. -/
theorem legacy_page_shape_by_count_fails :
    extractElementsV1 2 (PageData.bare [dupCandidateRecord])
        = Except.error "TypeError: undefined is not iterable" ∧
    extractElements (PageData.bare [dupCandidateRecord])
        = Except.ok [dupCandidateRecord] := by
  exact ⟨rfl, rfl⟩

/-- Claim C8, amended: the TreeMap-based normaliser (part_000, part_001 and
`cancelDuplicates` in main.ts) detects the shape by checking whether the
payload exposes sequence semantics (`data.length === undefined`), extracts
both recognised shapes without raising, and raises a hard error on an
unrecognised third shape; the first main.ts variant instead selects the
shape by page counter — treating the first page as bare and every later
page as wrapped — and raises on pages whose actual shape disagrees. -/
theorem normalizer_shape_detection (runs : List RunRecord) (count : Nat) :
    (extractElements (PageData.bare runs) = Except.ok runs) ∧
    (extractElements (PageData.wrapped runs) = Except.ok runs) ∧
    (∃ e, extractElements PageData.malformed = Except.error e) ∧
    (count ≥ 2 → extractElementsV1 count (PageData.bare runs)
        = Except.error "TypeError: undefined is not iterable") ∧
    (extractElementsV1 1 (PageData.wrapped runs)
        = Except.error "TypeError: item.data is not iterable") := by
  refine ⟨rfl, rfl, ⟨_, rfl⟩, ?_, rfl⟩
  intro h
  unfold extractElementsV1
  rw [if_neg (by omega)]

/-- Witness for C8 (amended): a bare second page makes the legacy variant
raise. -/
theorem normalizer_shape_detection_witness :
    extractElementsV1 2 (PageData.bare [])
        = Except.error "TypeError: undefined is not iterable" :=
  (normalizer_shape_detection [] 2).2.2.2.1 (by omega)

/-- Every entry produced by the page loop of one status query is an old
entry or originates from a record of one of that query's pages. -/
theorem mem_insertPages (pages : List PageData) :
    ∀ idx idx2 q, insertPages idx pages = Except.ok idx2 → q ∈ idx2 →
      q ∈ idx ∨ ∃ item ∈ pages, ∃ elements,
        extractElements item = Except.ok elements ∧
          ∃ e ∈ elements, q = (e.run_number, e) := by
  induction pages with
  | nil =>
    intro idx idx2 q h hq
    simp only [insertPages, Except.ok.injEq] at h
    subst h
    exact Or.inl hq
  | cons item rest ih =>
    intro idx idx2 q h hq
    rw [insertPages] at h
    cases hext : extractElements item with
    | error e => rw [hext] at h; cases h
    | ok elements =>
      rw [hext] at h
      rcases ih _ _ q h hq with hidx | ⟨item', hitem', tail⟩
      · rcases mem_insertRuns elements idx q hidx with h' | ⟨e, he, heq⟩
        · exact Or.inl h'
        · exact Or.inr ⟨item, List.mem_cons_self item rest, elements, hext, e, he, heq⟩
      · exact Or.inr ⟨item', List.mem_cons_of_mem item hitem', tail⟩

/-- Every entry produced by the status loop is an old entry or originates
from a page listed under one of the queried statuses. -/
theorem mem_getWorkflowRunsAux (pagesFor : String → List PageData)
    (statuses : List String) :
    ∀ idx idx2 q, getWorkflowRunsAux pagesFor idx statuses = Except.ok idx2 →
      q ∈ idx2 →
      q ∈ idx ∨ ∃ status ∈ statuses, ∃ item ∈ pagesFor status, ∃ elements,
        extractElements item = Except.ok elements ∧
          ∃ e ∈ elements, q = (e.run_number, e) := by
  induction statuses with
  | nil =>
    intro idx idx2 q h hq
    simp only [getWorkflowRunsAux, Except.ok.injEq] at h
    subst h
    exact Or.inl hq
  | cons status rest ih =>
    intro idx idx2 q h hq
    rw [getWorkflowRunsAux] at h
    cases hip : insertPages idx (pagesFor status) with
    | error e => rw [hip] at h; cases h
    | ok idxMid =>
      rw [hip] at h
      rcases ih _ _ q h hq with hmid | ⟨status', hs', tail⟩
      · rcases mem_insertPages (pagesFor status) idx idxMid q hip hmid with
          h' | ⟨item, hi, tail⟩
        · exact Or.inl h'
        · exact Or.inr ⟨status, List.mem_cons_self status rest, item, hi, tail⟩
      · exact Or.inr ⟨status', List.mem_cons_of_mem status hs', tail⟩

/-- Claim C10, counterexample: the cancellation path of the first `run`
variant in src/src/main.ts issues its single listing query with no status
filter at all, so it is not the case that exactly the status values
`queued` and `in_progress` are queried in every cancellation path. -/
theorem legacy_query_has_no_status :
    (mainV1ListRunsQuery "master").status = none := rfl

/-- Claim C10, amended: every Run-Index-populating cancellation path queries
exactly the statuses `queued` and `in_progress` — `findAndCancelRuns` in
part_000, `getSortedWorkflowRuns` in part_001 and `cancelDuplicates` in
main.ts — and never `completed`; every record inserted into the index built
by `getWorkflowRuns` originates from a page of a query with one of those
two statuses, and the listing queries built by `findAndCancelRuns` carry
exactly those statuses under every cancel mode. The remaining legacy path
(first main.ts variant) issues its single listing query with no status
filter. -/
theorem status_values_queried (pagesFor : String → List PageData)
    (idx : List (Nat × RunRecord)) (q : Nat × RunRecord)
    (cancelMode : CancelMode) (sourceWorkflowId sourceRunId : Nat)
    (headBranch sourceEventName branch : String) :
    statusValues = ["queued", "in_progress"] ∧
    getSortedWorkflowRunsStatusValues = ["queued", "in_progress"] ∧
    cancelDuplicatesStatusValues = ["queued", "in_progress"] ∧
    "completed" ∉ statusValues ∧
    (getWorkflowRuns pagesFor = Except.ok idx → q ∈ idx →
      ∃ status ∈ statusValues, ∃ item ∈ pagesFor status, ∃ elements,
        extractElements item = Except.ok elements ∧
          ∃ e ∈ elements, q = (e.run_number, e)) ∧
    ((findAndCancelRunsListingQueries cancelMode sourceWorkflowId sourceRunId
        headBranch sourceEventName).map (fun request => request.status)
      = statusValues.map some) ∧
    (mainV1ListRunsQuery branch).status = none := by
  refine ⟨rfl, rfl, rfl, by decide, ?_, ?_, rfl⟩
  · intro h hq
    rcases mem_getWorkflowRunsAux pagesFor statusValues [] idx q h hq with
      h' | h'
    · cases h'
    · exact h'
  · cases cancelMode <;> rfl

/-- Witness for C10 (amended): a single bare page under each status, holding
one record, yields an index whose sole entry indeed originates from a page
of one of the two queried statuses. -/
theorem status_values_queried_witness :
    ∃ status ∈ statusValues,
      ∃ item ∈ [PageData.bare [selfModeRecord]], ∃ elements,
        extractElements item = Except.ok elements ∧
          ∃ e ∈ elements, ((2 : Nat), selfModeRecord) = (e.run_number, e) :=
  (status_values_queried (fun _ => [PageData.bare [selfModeRecord]])
      [(2, selfModeRecord)] (2, selfModeRecord) CancelMode.duplicates 0 0
      "main" "push" "master").2.2.2.2.1 rfl (by simp)

/-- Claim C7, counterexample: with job-name patterns supplied together with
the SELF cancel mode, `run` does fail fatally with the incompatibility, but
only after one network call — the `getWorkflowRun` call issued by
`getWorkflowId` — so it is not the case that no network call is attempted
before the failure. -/
theorem network_call_before_config_failure :
    (runEntryChecks
        (fun _ => "https://api.github.com/repos/o/r/actions/workflows/55")
        { selfRunId := 1, eventName := "push",
          cancelModeInput := some CancelMode.self,
          sourceRunIdInput := none, jobNameRegexps := ["^Build$"] }).1
      = [NetCall.getWorkflowRunCall 1] ∧
    (runEntryChecks
        (fun _ => "https://api.github.com/repos/o/r/actions/workflows/55")
        { selfRunId := 1, eventName := "push",
          cancelModeInput := some CancelMode.self,
          sourceRunIdInput := none, jobNameRegexps := ["^Build$"] }).2
      = Except.error "You cannot specify jobNames on this cancelMode." := by
  exact ⟨rfl, rfl⟩

/-- Claim C7, amended: for every configuration supplying job-name patterns
together with the DUPLICATES or SELF cancel mode (and whose workflow-id
resolution succeeds), the invocation fails fatally with the incompatibility
reported, before any listing, job or cancellation call — but after exactly
one network call, the `getWorkflowRun` call through which `getWorkflowId`
resolves the source run's workflow. -/
theorem incompatible_patterns_fail_after_workflow_resolution
    (workflowUrlOf : Nat → String) (cfg : RunConfig) (w : Option Nat)
    (hpat : cfg.jobNameRegexps.length > 0)
    (hmode : cfg.cancelModeInput.getD CancelMode.duplicates
        = CancelMode.duplicates ∨
      cfg.cancelModeInput.getD CancelMode.duplicates = CancelMode.self)
    (hwf : getWorkflowId workflowUrlOf (cfg.sourceRunIdInput.getD cfg.selfRunId)
        = Except.ok w) :
    runEntryChecks workflowUrlOf cfg =
      ([NetCall.getWorkflowRunCall (cfg.sourceRunIdInput.getD cfg.selfRunId)],
        Except.error "You cannot specify jobNames on this cancelMode.") := by
  simp only [runEntryChecks, hwf]
  rw [if_pos ⟨hpat, hmode⟩]

/-- Witness for C7 (amended): patterns plus the DUPLICATES mode and a
resolvable workflow URL produce the fatal incompatibility after the single
workflow-resolution call. -/
theorem incompatible_patterns_fail_after_workflow_resolution_witness :
    runEntryChecks
        (fun _ => "https://api.github.com/repos/o/r/actions/workflows/55")
        { selfRunId := 9, eventName := "push",
          cancelModeInput := some CancelMode.duplicates,
          sourceRunIdInput := some 8, jobNameRegexps := ["Tests.*"] } =
      ([NetCall.getWorkflowRunCall 8],
        Except.error "You cannot specify jobNames on this cancelMode.") :=
  incompatible_patterns_fail_after_workflow_resolution
    (fun _ => "https://api.github.com/repos/o/r/actions/workflows/55")
    { selfRunId := 9, eventName := "push",
      cancelModeInput := some CancelMode.duplicates,
      sourceRunIdInput := some 8, jobNameRegexps := ["Tests.*"] }
    (some 55) (by decide) (Or.inl rfl) rfl

end CancelRuns
